import Mathlib

/-!
Verification development for the PetSwipe agentic pipeline orchestrator
(`agentic_ai/workflows/assembly_line.py`) and the cost-accounting ledger
(`agentic_ai/utils/costs.py`, `agentic_ai/utils/context.py`).

The Python code is shallowly embedded: dictionaries become association
lists, `deque(maxlen=n)` becomes a bounded-append list, float arithmetic
becomes exact rational arithmetic (`ℚ`) with Python's `round(x, n)`
modelled by rounding `x * 10^n` to the nearest integer, and code that can
raise returns `Except String`.  Wall-clock timestamps and the real-time
timeout are not modelled; the `asyncio.wait_for` timeout (and any other
orchestration-level exception raised by the graph runtime) is modelled by
an `interrupt : Option String` argument to `execute`: `some msg` means the
awaited graph run raised with message `msg`, exactly feeding the
`except Exception` branch of the source.
-/

namespace PetSwipe

/-- Execution context triple from `utils/context.py`: three context
variables, each defaulting to the sentinel `"unknown"`. -/
structure Ctx where
  workflow : String
  agent : String
  request_id : String
deriving Repr, DecidableEq

/-- The default context (all three variables at their declared default). -/
def defaultCtx : Ctx := ⟨"unknown", "unknown", "unknown"⟩

/-- First-match association-list lookup, modelling Python `dict.get` /
`dict[k]` for dicts whose keys are unique. -/
def dictLookup {β : Type} (k : String) : List (String × β) → Option β
  | [] => none
  | p :: rest => if p.1 = k then some p.2 else dictLookup k rest

/-- Python truthiness of an `Optional[int]`: `None` and `0` are falsy. -/
def truthyOptNat : Option Nat → Bool
  | none => false
  | some k => k != 0

/-- Python slice `l[-k:]` for a non-negative `k`: for `k = 0` the slice is
`l[0:]` (the whole list, since `-0 == 0`); for `k > 0` it is the last
`min k (length l)` elements. -/
def pySliceLast {α : Type} (l : List α) (k : Nat) : List α :=
  if k = 0 then l else l.drop (l.length - k)

/-! ## Pipeline orchestrator (`workflows/assembly_line.py`)

The state payloads (`data`, `metadata`) are Python dicts of arbitrary
content; they are embedded as an opaque type parameter `D`. -/

/-- `AgentState` from `agents/base_agent.py` (the fields the pipeline
reads and writes; `agent_name` and `timestamp` are bookkeeping that no
claim depends on and are dropped). -/
structure AgentState (D : Type) where
  data : D
  metadata : D
  errors : List String

/-- An agent's `process` capability: transforms an `AgentState`, may
raise (modelled as `Except.error` with the exception message). -/
def AgentProc (D : Type) : Type := AgentState D → Except String (AgentState D)

/-- An agent as registered with the pipeline: name plus behaviour. -/
structure Agent (D : Type) where
  name : String
  proc : AgentProc D

/-- One element of `state["agent_results"]` built in `_create_agent_node`
(`processing_time` and `timestamp` are wall-clock values, not modelled). -/
structure StageResult where
  agent : String
  success : Bool
  errors : List String
deriving Repr, DecidableEq

/-- The mutable graph state threaded through the compiled LangGraph
chain. -/
structure PipeState (D : Type) where
  data : D
  metadata : D
  errors : List String
  agent_results : List StageResult
  pipeline_id : String

/-- The dictionary returned by `AssemblyLinePipeline.execute`
(`total_time` and `timestamp` are wall-clock values, not modelled). -/
structure RunResult (D : Type) where
  success : Bool
  data : D
  metadata : D
  errors : List String
  agent_results : List StageResult
  pipeline_id : String

/-- `AssemblyLinePipeline` instance state: the agent registry dict
(embedded as an append-ordered association list, latest binding wins on
lookup), the order list, the compiled graph (the ordered node chain once
`build()` ran), and the execution history. -/
structure Pipeline (D : Type) where
  name : String
  agents : List (String × AgentProc D)
  agent_order : List String
  compiled : Option (List String)
  execution_history : List (RunResult D)

/-- `AssemblyLinePipeline.__init__`: empty registry, no compiled graph,
empty history. -/
def mkPipeline {D : Type} (name : String) : Pipeline D :=
  ⟨name, [], [], none, []⟩

/-- `self.agents[agent.name] = agent` on a Python dict: the latest
assignment wins, so look the name up in the reversed append list. -/
def lookupAgent {D : Type} (p : Pipeline D) (n : String) : Option (AgentProc D) :=
  dictLookup n p.agents.reverse

/-- `add_agent`: unconditionally appends to the registry and the order
list and returns self.  The source performs no validation here — no
duplicate-name check and no built-state check. -/
def add_agent {D : Type} (p : Pipeline D) (a : Agent D) : Pipeline D :=
  { p with agents := p.agents ++ [(a.name, a.proc)],
           agent_order := p.agent_order ++ [a.name] }

/-- `build`: wires one node per `agent_order` entry into a linear chain
and compiles it.  The source performs no validation of its own (no
emptiness or uniqueness check); the LangGraph compile call is external
library code and is embedded as fixing the node chain. -/
def build {D : Type} (p : Pipeline D) : Pipeline D :=
  { p with compiled := some p.agent_order }

/-- The node function produced by `_create_agent_node`: look the agent up
in the registry (a missing key raises, as Python `self.agents[name]`
would), run its `process` on the current data/metadata/errors, and on
normal return write the results back and append one stage record whose
success flag is `len(result_state.errors) == 0`.  An exception from
`process` propagates (the `try` has only a `finally`). -/
def runNode {D : Type} (p : Pipeline D) (n : String) (s : PipeState D) :
    Except String (PipeState D) :=
  match lookupAgent p n with
  | none => .error ("KeyError: " ++ n)
  | some proc =>
    match proc ⟨s.data, s.metadata, s.errors⟩ with
    | .error e => .error e
    | .ok rs =>
      .ok { s with data := rs.data, metadata := rs.metadata, errors := rs.errors,
                   agent_results := s.agent_results ++
                     [⟨n, rs.errors.isEmpty, rs.errors⟩] }

/-- Sequential run of the compiled chain: the first node exception aborts
the whole run (LangGraph propagates node exceptions out of `ainvoke`). -/
def runNodes {D : Type} (p : Pipeline D) : List String → PipeState D →
    Except String (PipeState D)
  | [], s => .ok s
  | n :: rest, s =>
    match runNode p n s with
    | .error e => .error e
    | .ok s' => runNodes p rest s'

/-- `pipeline_id = f"{self.name}_{start_time.timestamp()}"`; the start
timestamp is an input of the model. -/
def pipelineId {D : Type} (p : Pipeline D) (startTime : Nat) : String :=
  p.name ++ "_" ++ toString startTime

/-- Outcome of awaiting the compiled graph inside `execute`'s `try`:
either the injected orchestration-level exception (timeout or runtime
failure, `interrupt = some msg`) or the deterministic chain run, which
itself may raise out of a node. -/
def graphRun {D : Type} (p : Pipeline D) (nodes : List String) (input md : D)
    (interrupt : Option String) (startTime : Nat) : Except String (PipeState D) :=
  match interrupt with
  | some msg => .error msg
  | none => runNodes p nodes ⟨input, md, [], [], pipelineId p startTime⟩

/-- Everything `execute` produces: the updated pipeline (history), the
returned run result, the context as observed inside the `try` block
(after `set_workflow`/`set_request_id`), and the context after the
`finally` block restored both variables. -/
structure ExecOutcome (D : Type) where
  pipe : Pipeline D
  result : RunResult D
  ctxDuring : Ctx
  ctxAfter : Ctx

/-- `AssemblyLinePipeline.execute`.  An unbuilt pipeline raises
`RuntimeError` before touching the context.  Otherwise the workflow
variable is set to the pipeline *name* and the request variable to the
fresh `pipeline_id`; the graph is awaited; on normal completion the
result (success iff the error list is empty) is appended to
`execution_history`; on any exception the `except` branch returns a
failure result built from the raw input, with a single error string and
empty stage results, and does *not* append to the history; the `finally`
block restores both context variables. -/
def execute {D : Type} (p : Pipeline D) (input md : D) (interrupt : Option String)
    (startTime : Nat) (ctx : Ctx) : Except String (ExecOutcome D) :=
  match p.compiled with
  | none => .error "Pipeline not built. Call build() first."
  | some nodes =>
    let pid := pipelineId p startTime
    let ctxDuring : Ctx := { ctx with workflow := p.name, request_id := pid }
    match graphRun p nodes input md interrupt startTime with
    | .ok fs =>
      let result : RunResult D :=
        ⟨fs.errors.isEmpty, fs.data, fs.metadata, fs.errors, fs.agent_results,
         fs.pipeline_id⟩
      .ok ⟨{ p with execution_history := p.execution_history ++ [result] },
           result, ctxDuring, ctx⟩
    | .error e =>
      let result : RunResult D := ⟨false, input, md, [e], [], pid⟩
      .ok ⟨p, result, ctxDuring, ctx⟩

/-- `get_execution_history`: `if limit:` is Python truthiness, so both
`None` and `0` return the whole history; otherwise the last `limit`
entries. -/
def get_execution_history {D : Type} (p : Pipeline D) (limit : Option Nat) :
    List (RunResult D) :=
  if truthyOptNat limit then pySliceLast p.execution_history (limit.getD 0)
  else p.execution_history

/-! ## Pricing registry and cost tracker (`utils/costs.py`) -/

/-- The resolved `ModelPricing` dataclass. -/
structure ModelPricing where
  input_per_1k : ℚ
  output_per_1k : ℚ
  cached_input_per_1k : Option ℚ
  cache_write_per_1k : Option ℚ
  cache_write_5m_per_1k : Option ℚ
  cache_write_1h_per_1k : Option ℚ
  unit_label : Option String
  unit_cost : Option ℚ
  unit_costs : Option (List (String × ℚ))
deriving Repr

/-- The rate keys read off a (tier or model) config dict with `.get`;
`none` is an absent key. -/
structure RateFields where
  input_per_1k : Option ℚ := none
  output_per_1k : Option ℚ := none
  cached_input_per_1k : Option ℚ := none
  cache_write_per_1k : Option ℚ := none
  cache_write_5m_per_1k : Option ℚ := none
  cache_write_1h_per_1k : Option ℚ := none
  unit_label : Option String := none
  unit_cost : Option ℚ := none
  unit_costs : Option (List (String × ℚ)) := none
deriving Repr

/-- One entry of a model's `tiers` list: optional inclusive prompt-token
bounds plus its own rates. -/
structure TierConfig where
  min_prompt_tokens : Option Nat := none
  max_prompt_tokens : Option Nat := none
  rates : RateFields := {}
deriving Repr

/-- A modality-level (or top-level) config dict: direct rate keys and an
optional `tiers` list. -/
structure ModalityConfig where
  rates : RateFields := {}
  tiers : Option (List TierConfig) := none
deriving Repr

/-- A model's config dict: either direct/tiered rates (`top`) or a
`modalities` map (when the map is present and non-empty the top-level
rates are ignored, as in `_select_modality`). -/
structure ModelConfig where
  top : ModalityConfig := {}
  modalities : Option (List (String × ModalityConfig)) := none
deriving Repr

/-- The `costs` section of the configuration consumed by
`CostTracker.__init__` and `PricingRegistry`. -/
structure CostsConfig where
  enabled : Bool := true
  max_entries : Nat := 10000
  default_model : Option String := none
  models : List (String × ModelConfig) := []
deriving Repr

/-- `self.models.get(model)`. -/
def lookupModel (cfg : CostsConfig) (m : String) : Option ModelConfig :=
  dictLookup m cfg.models

/-- `_select_modality`: an absent or empty (falsy) modality map keeps the
model config itself; otherwise prefer the requested modality, then
`"text"`, then the first declared modality. -/
def select_modality (c : ModelConfig) (modality : String) : ModalityConfig :=
  match c.modalities with
  | none => c.top
  | some ms =>
    if ms.isEmpty then c.top
    else
      match dictLookup modality ms with
      | some mc => mc
      | none =>
        match dictLookup "text" ms with
        | some mc => mc
        | none => ((ms.head?).map Prod.snd).getD c.top

/-- The per-tier test of `_select_tier`'s loop:
`prompt_tokens >= tier.get("min_prompt_tokens", 0)` and
`max_tokens is None or prompt_tokens <= max_tokens`. -/
def tierMatches (pt : Nat) (t : TierConfig) : Bool :=
  decide (t.min_prompt_tokens.getD 0 ≤ pt) &&
    (match t.max_prompt_tokens with
     | none => true
     | some mx => decide (pt ≤ mx))

/-- The `for tier in tiers` loop of `_select_tier`: first matching tier,
else `none` (the loop falls through). -/
def findTier (pt : Nat) : List TierConfig → Option TierConfig
  | [] => none
  | t :: rest => if tierMatches pt t then some t else findTier pt rest

/-- `_select_tier`: an absent or empty (falsy) `tiers` list keeps the
config's own rates; otherwise the first matching tier, falling back to
`tiers[-1]`. -/
def select_tier (c : ModalityConfig) (pt : Nat) : RateFields :=
  match c.tiers with
  | none => c.rates
  | some ts =>
    if ts.isEmpty then c.rates
    else
      match findTier pt ts with
      | some t => t.rates
      | none => ((ts.getLast?).getD {}).rates

/-- `PricingRegistry.resolve`: model lookup with default-model fallback,
all-zero rate table when both miss, then modality and tier selection and
field extraction (`input_per_1k`/`output_per_1k` default to `0.0`). -/
def resolve (cfg : CostsConfig) (model : String) (prompt_tokens : Nat)
    (modality : String) : ModelPricing :=
  let mc :=
    match lookupModel cfg model with
    | some c => some c
    | none =>
      match cfg.default_model with
      | some d => lookupModel cfg d
      | none => none
  match mc with
  | none => ⟨0, 0, none, none, none, none, none, none, none⟩
  | some c =>
    let f := select_tier (select_modality c modality) prompt_tokens
    ⟨f.input_per_1k.getD 0, f.output_per_1k.getD 0, f.cached_input_per_1k,
     f.cache_write_per_1k, f.cache_write_5m_per_1k, f.cache_write_1h_per_1k,
     f.unit_label, f.unit_cost, f.unit_costs⟩

/-- Python's `round(x, d)` on the exact rational model: round `x * 10^d`
to the nearest integer and scale back. -/
def roundTo (d : Nat) (q : ℚ) : ℚ :=
  ((round (q * 10 ^ d) : ℤ) : ℚ) / 10 ^ d

/-- Python `a or b` for an optional rate: `None` and `0.0` are falsy. -/
def pyOrRate (a : Option ℚ) (b : ℚ) : ℚ :=
  match a with
  | none => b
  | some x => if x = 0 then b else x

/-- The `metadata` dict keys `CostTracker.record` reads, with the `.get`
defaults it uses. -/
structure RecordMeta where
  modality : String := "text"
  cached_tokens : Nat := 0
  cache_write_tokens : Nat := 0
  cache_write_5m_tokens : Nat := 0
  cache_write_1h_tokens : Nat := 0
  unit_count : Nat := 0
  unit_tier : Option String := none
deriving Repr, DecidableEq

/-- A ledger entry as built by `record` (the ISO `timestamp` string and
the echoed `metadata` dict are not modelled). -/
structure Entry where
  workflow : String
  agent : String
  request_id : String
  model : String
  prompt_tokens : Nat
  cached_tokens : Nat
  cache_write_tokens : Nat
  cache_write_5m_tokens : Nat
  cache_write_1h_tokens : Nat
  completion_tokens : Nat
  total_tokens : Nat
  cost_usd : ℚ
deriving Repr, DecidableEq

/-- One `record` invocation's arguments (metadata `none` is Python
`metadata=None`). -/
structure RecordIn where
  model : String
  prompt_tokens : Nat
  completion_tokens : Nat
  total_tokens : Nat
  metadata : Option RecordMeta
deriving Repr, DecidableEq

/-- Append to a `deque(maxlen=m)`: the new element always enters and the
oldest elements are dropped from the front when the length would exceed
`m`. -/
def dequeAppend {α : Type} (m : Nat) (l : List α) (x : α) : List α :=
  let l2 := l ++ [x]
  if m < l2.length then l2.drop (l2.length - m) else l2

/-- `CostTracker` instance state (logger/metrics/export side effects are
not modelled). -/
structure CostTracker where
  enabled : Bool
  max_entries : Nat
  cfg : CostsConfig
  entries : List Entry

/-- `CostTracker.__init__` from a configuration. -/
def mkTracker (cfg : CostsConfig) : CostTracker :=
  ⟨cfg.enabled, cfg.max_entries, cfg, []⟩

/-- The entry `CostTracker.record` builds once tracking is enabled:
lines 131–190 of `utils/costs.py`.  Cached tokens are clamped to the
prompt count, each cache-write class is clamped to the remaining
`prompt - cached` pool independently, the billable prompt is clamped at
zero (truncated `Nat` subtraction is exactly Python's `max(· , 0)`
chain), cache-write rates fall back through Python `or` (so an explicit
`0.0` rate also falls back), the unit cost is resolved through the named
unit-cost map, and the total is rounded to 8 decimal places. -/
def entryOf (cfg : CostsConfig) (i : RecordIn) (ctx : Ctx) : Entry :=
  let modality := match i.metadata with | some m => m.modality | none => "text"
  let pricing := resolve cfg i.model i.prompt_tokens modality
  let cached_rate :=
    match pricing.cached_input_per_1k with
    | some r => r
    | none => pricing.input_per_1k
  let cached := match i.metadata with
    | some m => min m.cached_tokens i.prompt_tokens
    | none => 0
  let pool := i.prompt_tokens - cached
  let cw := match i.metadata with | some m => min m.cache_write_tokens pool | none => 0
  let cw5 := match i.metadata with | some m => min m.cache_write_5m_tokens pool | none => 0
  let cw1 := match i.metadata with | some m => min m.cache_write_1h_tokens pool | none => 0
  let billable := i.prompt_tokens - cached - cw - cw5 - cw1
  let cache_write_rate := pyOrRate pricing.cache_write_per_1k pricing.input_per_1k
  let cache_write_5m_rate := pyOrRate pricing.cache_write_5m_per_1k cache_write_rate
  let cache_write_1h_rate := pyOrRate pricing.cache_write_1h_per_1k cache_write_rate
  let unit_count := match i.metadata with | some m => m.unit_count | none => 0
  let unit_tier := match i.metadata with | some m => m.unit_tier | none => none
  let unit_cost :=
    match pricing.unit_costs, unit_tier with
    | some m, some tn =>
      match dictLookup tn m with
      | some c => some c
      | none => pricing.unit_cost
    | _, _ => pricing.unit_cost
  let unitTerm :=
    match unit_cost with
    | some c => if c ≠ 0 ∧ unit_count ≠ 0 then (unit_count : ℚ) * c else 0
    | none => 0
  let cost :=
    ((billable : ℚ) / 1000) * pricing.input_per_1k
      + ((cached : ℚ) / 1000) * cached_rate
      + ((cw : ℚ) / 1000) * cache_write_rate
      + ((cw5 : ℚ) / 1000) * cache_write_5m_rate
      + ((cw1 : ℚ) / 1000) * cache_write_1h_rate
      + ((i.completion_tokens : ℚ) / 1000) * pricing.output_per_1k
      + unitTerm
  ⟨ctx.workflow, ctx.agent, ctx.request_id, i.model, i.prompt_tokens, cached,
   cw, cw5, cw1, i.completion_tokens, i.total_tokens, roundTo 8 cost⟩

/-- `CostTracker.record`: `None` when tracking is disabled, otherwise the
entry is built, appended to the bounded deque, and returned. -/
def record (t : CostTracker) (i : RecordIn) (ctx : Ctx) :
    CostTracker × Option Entry :=
  if t.enabled then
    let e := entryOf t.cfg i ctx
    ({ t with entries := dequeAppend t.max_entries t.entries e }, some e)
  else (t, none)

/-- Fold a list of `record` calls over a tracker, keeping only the
tracker (the shape used to state eviction behaviour). -/
def recordMany (t : CostTracker) (inputs : List RecordIn) (ctx : Ctx) :
    CostTracker :=
  inputs.foldl (fun acc i => (record acc i ctx).1) t

/-- `entry[key] or "unknown"`: the only falsy string is the empty one. -/
def orUnknown (s : String) : String :=
  if s = "" then "unknown" else s

/-- One step of the breakdown accumulation in `summary`:
`bucket = dict.setdefault(k, 0.0); dict[k] = round(bucket + cost, 6)`. -/
def updBucket (m : List (String × ℚ)) (k : String) (c : ℚ) :
    List (String × ℚ) :=
  match dictLookup k m with
  | some v => m.map (fun p => if p.1 = k then (k, roundTo 6 (v + c)) else p)
  | none => m ++ [(k, roundTo 6 (0 + c))]

/-- One of `summary`'s three breakdown maps. -/
def breakdownMap (key : Entry → String) (entries : List Entry) :
    List (String × ℚ) :=
  entries.foldl (fun m e => updBucket m (orUnknown (key e)) e.cost_usd) []

/-- The value `summary()` returns (the optional `since_minutes` window
filters on wall-clock timestamps, which are not modelled; this is the
`since_minutes=None` behaviour over the current entries). -/
structure Summary where
  totals_cost_usd : ℚ
  totals_prompt_tokens : Nat
  totals_completion_tokens : Nat
  totals_total_tokens : Nat
  count : Nat
  by_workflow : List (String × ℚ)
  by_agent : List (String × ℚ)
  by_model : List (String × ℚ)

/-- `CostTracker.summary`. -/
def summary (t : CostTracker) : Summary :=
  let es := t.entries
  ⟨roundTo 6 (es.map (fun e => e.cost_usd)).sum,
   (es.map (fun e => e.prompt_tokens)).sum,
   (es.map (fun e => e.completion_tokens)).sum,
   (es.map (fun e => e.total_tokens)).sum,
   es.length,
   breakdownMap (fun e => e.workflow) es,
   breakdownMap (fun e => e.agent) es,
   breakdownMap (fun e => e.model) es⟩

/-- `CostTracker.recent`: `list(self.entries)[-limit:]`. -/
def recent (t : CostTracker) (limit : Nat) : List Entry :=
  pySliceLast t.entries limit

/-- Sum of the values of a breakdown map. -/
def mapSum (m : List (String × ℚ)) : ℚ :=
  (m.map (fun p => p.2)).sum

/-- Whether an `Except` value is a normal result. -/
def exceptOk {ε α : Type} : Except ε α → Bool
  | .ok _ => true
  | .error _ => false

/-- Specification-side reading of a tier bound: the prompt count lies in
the inclusive `[min, max]` range, either bound optional/open-ended. -/
def inTierRange (pt : Nat) (t : TierConfig) : Prop :=
  t.min_prompt_tokens.getD 0 ≤ pt ∧ ∀ mx ∈ t.max_prompt_tokens, pt ≤ mx

/-- The half-ulp of rounding to 6 decimal places. -/
def eps6 : ℚ := 1 / 2000000

/-! ## Concrete fixtures used by counterexamples and witnesses -/

/-- An agent whose `process` returns the state unchanged. -/
def passAgent (n : String) : Agent Nat := ⟨n, fun s => .ok s⟩

/-- An agent whose `process` appends one error to the shared error list
and returns normally. -/
def errAgent (n msg : String) : Agent Nat :=
  ⟨n, fun s => .ok { s with errors := s.errors ++ [msg] }⟩

/-- An agent whose `process` raises. -/
def boomAgent : Agent Nat := ⟨"boom", fun _ => .error "boom"⟩

/-- A built two-stage pipeline of well-behaved agents. -/
def gpipe : Pipeline Nat :=
  build (add_agent (add_agent (mkPipeline "G") (passAgent "a1")) (passAgent "a2"))

/-- A built single-stage pipeline whose only agent raises. -/
def cpipe : Pipeline Nat := build (add_agent (mkPipeline "P") boomAgent)

/-- A built two-stage pipeline whose first agent raises. -/
def raisepipe : Pipeline Nat :=
  build (add_agent (add_agent (mkPipeline "R") boomAgent) (passAgent "s2"))

/-- A built three-stage pipeline whose second stage appends an error. -/
def w3pipe : Pipeline Nat :=
  build (add_agent (add_agent (add_agent (mkPipeline "W") (passAgent "s1"))
    (errAgent "s2" "stage2 failed")) (passAgent "s3"))

/-- A built single-stage pipeline named `TestPipe`. -/
def cp7 : Pipeline Nat := build (add_agent (mkPipeline "TestPipe") (passAgent "c1"))

/-- A built single-stage pipeline named `TestPipeline`. -/
def bpipe : Pipeline Nat := build (add_agent (mkPipeline "TestPipeline") (passAgent "a1"))

/-- The pricing configuration of the cached-token billing scenario: base
input 1.0/1k, cached input 0.5/1k, output 2.0/1k. -/
def c3cfg : CostsConfig :=
  { models := [("gpt-4o-mini",
      { top := { rates := { input_per_1k := some 1,
                            cached_input_per_1k := some (1/2),
                            output_per_1k := some 2 } } })] }

/-- First tier of the tier-selection scenario: `max = 200000`,
rates 0.001/0.002 per 1k. -/
def c4tier1 : TierConfig :=
  { max_prompt_tokens := some 200000,
    rates := { input_per_1k := some (1/1000), output_per_1k := some (2/1000) } }

/-- Second tier of the tier-selection scenario: `min = 200001`,
rates 0.003/0.004 per 1k. -/
def c4tier2 : TierConfig :=
  { min_prompt_tokens := some 200001,
    rates := { input_per_1k := some (3/1000), output_per_1k := some (4/1000) } }

/-- The tiered modality config of the tier-selection scenario. -/
def c4modality : ModalityConfig := { tiers := some [c4tier1, c4tier2] }

/-- The pricing configuration of the tier-selection scenario. -/
def c4cfg : CostsConfig :=
  { models := [("gemini-3-pro-preview", { top := c4modality })] }

/-- A configuration with cost tracking disabled. -/
def cfgDisabled : CostsConfig := { enabled := false }

/-- A configuration with a two-entry ledger bound. -/
def cfg2 : CostsConfig := { max_entries := 2 }

/-- Three distinct record calls for the eviction scenario. -/
def evictIns : List RecordIn :=
  [⟨"m1", 100, 0, 100, none⟩, ⟨"m2", 200, 0, 200, none⟩, ⟨"m3", 300, 0, 300, none⟩]

/-! ## Theorems -/

/-- When every node's agent resolves and its `process` always returns
normally, the chain run completes and appends exactly one stage record
per node, in chain order. -/
theorem runNodes_ok_of_total {D : Type} (p : Pipeline D) :
    ∀ (nodes : List String) (s : PipeState D),
      (∀ n ∈ nodes, ∃ proc, lookupAgent p n = some proc ∧
        ∀ st, ∃ st', proc st = .ok st') →
      ∃ s', runNodes p nodes s = .ok s' ∧
        s'.agent_results.map (fun r => r.agent) =
          s.agent_results.map (fun r => r.agent) ++ nodes := by
  intro nodes
  induction nodes with
  | nil => intro s _; exact ⟨s, rfl, by simp⟩
  | cons n rest ih =>
    intro s hp
    obtain ⟨proc, hlk, htot⟩ := hp n (by simp)
    obtain ⟨st', hst'⟩ := htot ⟨s.data, s.metadata, s.errors⟩
    have hstep : runNode p n s = .ok
        { s with data := st'.data, metadata := st'.metadata, errors := st'.errors,
                 agent_results := s.agent_results ++
                   [⟨n, st'.errors.isEmpty, st'.errors⟩] } := by
      simp only [runNode, hlk, hst']
    obtain ⟨s', hrun, hmap⟩ := ih _ (fun m hm => hp m (by simp [hm]))
    refine ⟨s', ?_, ?_⟩
    · rw [runNodes, hstep]; exact hrun
    · rw [hmap]; simp

/-- C1 (amended): a built pipeline's `execute` never raises out of the
orchestration (the unbuilt `RuntimeError` aside) and its history grows by
exactly one entry — the returned run result — when the graph run
completes normally, while a timed-out or otherwise raising run leaves the
history unchanged. -/
theorem C1_history_growth_amended {D : Type} (p : Pipeline D) (nodes : List String)
    (input md : D) (interrupt : Option String) (startTime : Nat) (ctx : Ctx)
    (hb : p.compiled = some nodes) :
    exceptOk (execute p input md interrupt startTime ctx) = true ∧
    ∀ out, execute p input md interrupt startTime ctx = .ok out →
      out.pipe.execution_history =
        (if exceptOk (graphRun p nodes input md interrupt startTime) = true
         then p.execution_history ++ [out.result]
         else p.execution_history) := by
  simp only [execute, hb]
  cases hgr : graphRun p nodes input md interrupt startTime with
  | ok fs =>
    refine ⟨rfl, ?_⟩
    intro out hout
    cases hout
    simp [exceptOk]
  | error e =>
    refine ⟨rfl, ?_⟩
    intro out hout
    cases hout
    simp [exceptOk]

/-- C1 witness: the amended statement applies to a concrete built
pipeline. -/
theorem C1_history_growth_witness :
    exceptOk (execute gpipe 0 0 none 7 defaultCtx) = true :=
  (C1_history_growth_amended gpipe ["a1", "a2"] 0 0 none 7 defaultCtx rfl).1

/-- C1 counterexample: on the built pipeline `cpipe` (one raising agent,
empty history) an execute call that raises — and one that times out —
both return a result yet leave the history at length 0, not 1. -/
theorem C1_history_growth_counterexample :
    (execute cpipe 0 0 none 7 defaultCtx).map
        (fun o => o.pipe.execution_history.length) = .ok 0 ∧
    (execute cpipe 0 0 (some "PipelineTimeout") 7 defaultCtx).map
        (fun o => o.pipe.execution_history.length) = .ok 0 ∧
    cpipe.execution_history.length = 0 :=
  ⟨rfl, rfl, rfl⟩

/-- C2 (amended): with no timeout and every configured stage's `process`
returning normally (error-list appends included), `execute` runs every
stage exactly once in build order and the final result carries one
`StageResult` per configured stage, in order; a stage that *raises*,
however, aborts the chain (see the counterexample). -/
theorem C2_continue_on_error_amended {D : Type} (p : Pipeline D) (nodes : List String)
    (input md : D) (startTime : Nat) (ctx : Ctx)
    (hb : p.compiled = some nodes)
    (hprocs : ∀ n ∈ nodes, ∃ proc, lookupAgent p n = some proc ∧
      ∀ st, ∃ st', proc st = .ok st') :
    ∃ out, execute p input md none startTime ctx = .ok out ∧
      out.result.agent_results.map (fun r => r.agent) = nodes := by
  obtain ⟨s', hrun, hmap⟩ :=
    runNodes_ok_of_total p nodes ⟨input, md, [], [], pipelineId p startTime⟩ hprocs
  have hgr : graphRun p nodes input md none startTime = .ok s' := by
    rw [graphRun]; exact hrun
  have hexec : execute p input md none startTime ctx = .ok
      ⟨{ p with execution_history := p.execution_history ++
          [⟨s'.errors.isEmpty, s'.data, s'.metadata, s'.errors, s'.agent_results,
            s'.pipeline_id⟩] },
       ⟨s'.errors.isEmpty, s'.data, s'.metadata, s'.errors, s'.agent_results,
        s'.pipeline_id⟩,
       { ctx with workflow := p.name, request_id := pipelineId p startTime },
       ctx⟩ := by
    simp only [execute, hb, hgr]
  exact ⟨_, hexec, by simpa using hmap⟩

/-- C2 witness: on a three-stage chain whose second stage appends an
error, all three stage results are present and the third stage still
ran. -/
theorem C2_continue_on_error_witness :
    ∃ out, execute w3pipe 0 0 none 7 defaultCtx = .ok out ∧
      out.result.agent_results.map (fun r => r.agent) = ["s1", "s2", "s3"] :=
  C2_continue_on_error_amended w3pipe ["s1", "s2", "s3"] 0 0 7 defaultCtx rfl
    (by
      intro n hn
      fin_cases hn
      · exact ⟨_, rfl, fun st => ⟨_, rfl⟩⟩
      · exact ⟨_, rfl, fun st => ⟨_, rfl⟩⟩
      · exact ⟨_, rfl, fun st => ⟨_, rfl⟩⟩)

/-- C2 counterexample: `raisepipe` has two configured stages but its
first stage raises; the run result carries zero `StageResult`s (not two)
and the second stage never ran — a raising stage does halt the chain. -/
theorem C2_continue_on_error_counterexample :
    (execute raisepipe 0 0 none 7 defaultCtx).map
        (fun o => (o.result.agent_results.length, o.result.errors)) =
      .ok (0, ["boom"]) ∧
    raisepipe.agent_order.length = 2 :=
  ⟨rfl, rfl⟩

/-- C5 (amended): the code performs no setup-time validation of its own:
`add_agent` appends unconditionally and never raises — even after
`build()`, which it leaves stale (`compiled` unchanged) — and an unbuilt
pipeline fails only at `execute` time, with a `RuntimeError`.  No
`ConfigurationError` exists in the code. -/
theorem C5_no_setup_validation {D : Type} (p : Pipeline D) (a : Agent D)
    (input md : D) (interrupt : Option String) (startTime : Nat) (ctx : Ctx) :
    (add_agent p a).agent_order = p.agent_order ++ [a.name] ∧
    (add_agent p a).agents = p.agents ++ [(a.name, a.proc)] ∧
    (add_agent p a).compiled = p.compiled ∧
    (p.compiled = none →
      execute p input md interrupt startTime ctx =
        .error "Pipeline not built. Call build() first.") := by
  refine ⟨rfl, rfl, rfl, fun h => ?_⟩
  simp [execute, h]

/-- C5 witness: an unbuilt pipeline's `execute` raises the
`RuntimeError`. -/
theorem C5_no_setup_validation_witness :
    execute (mkPipeline "E" : Pipeline Nat) 0 0 none 0 defaultCtx =
      .error "Pipeline not built. Call build() first." :=
  (C5_no_setup_validation (mkPipeline "E") (passAgent "a1") 0 0 none 0
    defaultCtx).2.2.2 rfl

/-- C5 counterexample: calling `add_agent` on the already-built `bpipe`
returns normally — the stage is appended and the compiled graph is left
unchanged — rather than failing with a `ConfigurationError`. -/
theorem C5_no_setup_validation_counterexample :
    (add_agent bpipe (passAgent "a2")).agent_order = ["a1", "a2"] ∧
    (add_agent bpipe (passAgent "a2")).compiled = some ["a1"] :=
  ⟨rfl, rfl⟩

/-- C7 (amended): on a built pipeline every `execute` call sets the
"workflow" context value to the pipeline *name* (not the run id) and the
"request" value to the freshly generated run id
(`name_startTimestamp`), and restores both to their prior values when
`execute` returns, on the success and error paths alike. -/
theorem C7_context_scope_amended {D : Type} (p : Pipeline D) (nodes : List String)
    (input md : D) (interrupt : Option String) (startTime : Nat) (ctx : Ctx)
    (hb : p.compiled = some nodes) :
    exceptOk (execute p input md interrupt startTime ctx) = true ∧
    ∀ out, execute p input md interrupt startTime ctx = .ok out →
      out.ctxDuring.workflow = p.name ∧
      out.ctxDuring.request_id = pipelineId p startTime ∧
      out.ctxDuring.agent = ctx.agent ∧
      out.ctxAfter = ctx := by
  simp only [execute, hb]
  cases hgr : graphRun p nodes input md interrupt startTime with
  | ok fs =>
    refine ⟨rfl, ?_⟩
    intro out hout
    cases hout
    exact ⟨rfl, rfl, rfl, rfl⟩
  | error e =>
    refine ⟨rfl, ?_⟩
    intro out hout
    cases hout
    exact ⟨rfl, rfl, rfl, rfl⟩

/-- C7 witness: the amended statement applies to the concrete built
pipeline `cp7` under a non-default prior context. -/
theorem C7_context_scope_witness :
    exceptOk (execute cp7 1 2 none 5 ⟨"w0", "a0", "r0"⟩) = true :=
  (C7_context_scope_amended cp7 ["c1"] 1 2 none 5 ⟨"w0", "a0", "r0"⟩ rfl).1

/-- C7 counterexample: on `cp7` the generated run id is `TestPipe_5` but
the workflow context value during the run is the pipeline name
`TestPipe`, which differs from the run id — the workflow tag is not the
fresh run id. -/
theorem C7_context_scope_counterexample :
    (execute cp7 0 0 none 5 defaultCtx).map (fun o => o.ctxDuring.workflow) =
      .ok "TestPipe" ∧
    (execute cp7 0 0 none 5 defaultCtx).map (fun o => o.result.pipeline_id) =
      .ok "TestPipe_5" ∧
    ("TestPipe" : String) ≠ "TestPipe_5" :=
  ⟨rfl, rfl, by decide⟩

/-- C3 counterexample: with base input 1.0/1k, cached 0.5/1k, output
2.0/1k, `record` of prompt=1000, cached=200, completion=500 costs
exactly 1.9, not the claimed 2.0. -/
theorem C3_cached_billing_counterexample :
    (record (mkTracker c3cfg) ⟨"gpt-4o-mini", 1000, 500, 1500,
        some { cached_tokens := 200 }⟩ defaultCtx).2.map (fun e => e.cost_usd) =
      some (19/10) ∧
    (19/10 : ℚ) ≠ 2 := by
  constructor
  · simp only [record, mkTracker, entryOf, resolve, lookupModel, dictLookup,
      select_modality, select_tier, c3cfg, pyOrRate, roundTo, Option.map]
    norm_num [Rat.floor_def]
  · norm_num

/-- C3 (amended): with base input 1.0/1k, cached 0.5/1k, output 2.0/1k,
prompt=1000 with 200 cached tokens and completion=500 costs 1.9 — the
billable prompt `1000 - 200` at the base rate plus the 200 cached tokens
at the cached rate plus the completion at the output rate — and the same
call with completion=0 costs 0.9. -/
theorem C3_cached_billing_amended :
    (record (mkTracker c3cfg) ⟨"gpt-4o-mini", 1000, 500, 1500,
        some { cached_tokens := 200 }⟩ defaultCtx).2.map (fun e => e.cost_usd) =
      some (19/10) ∧
    (record (mkTracker c3cfg) ⟨"gpt-4o-mini", 1000, 0, 1000,
        some { cached_tokens := 200 }⟩ defaultCtx).2.map (fun e => e.cost_usd) =
      some (9/10) := by
  constructor <;>
  · simp only [record, mkTracker, entryOf, resolve, lookupModel, dictLookup,
      select_modality, select_tier, c3cfg, pyOrRate, roundTo, Option.map]
    norm_num [Rat.floor_def]

/-- A tier test holds exactly when the prompt count lies in the tier's
inclusive optional range. -/
theorem tierMatches_iff (pt : Nat) (t : TierConfig) :
    tierMatches pt t = true ↔ inTierRange pt t := by
  cases h : t.max_prompt_tokens <;>
    simp [tierMatches, inTierRange, h]

/-- The `_select_tier` loop returns the first matching tier, and `none`
exactly when no tier matches. -/
theorem findTier_spec (pt : Nat) : ∀ ts : List TierConfig,
    (∃ pre t post, ts = pre ++ t :: post ∧ (∀ u ∈ pre, ¬ inTierRange pt u) ∧
      inTierRange pt t ∧ findTier pt ts = some t) ∨
    ((∀ u ∈ ts, ¬ inTierRange pt u) ∧ findTier pt ts = none) := by
  intro ts
  induction ts with
  | nil => right; simp [findTier]
  | cons t rest ih =>
    by_cases hm : inTierRange pt t
    · left
      exact ⟨[], t, rest, rfl, by simp, hm,
        by simp [findTier, (tierMatches_iff pt t).2 hm]⟩
    · have hmf : tierMatches pt t = false := by
        cases hb : tierMatches pt t
        · rfl
        · exact absurd ((tierMatches_iff pt t).1 hb) hm
      have hft : findTier pt (t :: rest) = findTier pt rest := by
        simp [findTier, hmf]
      rcases ih with ⟨pre, u, post, hsplit, hpre, hu, hfind⟩ | ⟨hall, hfind⟩
      · left
        refine ⟨t :: pre, u, post, by simp [hsplit], ?_, hu, by rw [hft]; exact hfind⟩
        intro v hv
        rcases List.mem_cons.1 hv with rfl | hv'
        · exact hm
        · exact hpre v hv'
      · right
        refine ⟨?_, by rw [hft]; exact hfind⟩
        intro v hv
        rcases List.mem_cons.1 hv with rfl | hv'
        · exact hm
        · exact hall v hv'

/-- C4: when a modality config declares a non-empty tier list,
`select_tier` returns the rates of the first tier whose inclusive
`[min, max]` range (either bound open-ended) contains the prompt count,
falling back to the last declared tier when none matches; in particular
the two-tier fixture selects its second tier at 250,000 prompt tokens and
the corresponding `record` of 250,000 prompt / 0 completion tokens costs
exactly 0.75. -/
theorem C4_tier_selection :
    (∀ (c : ModalityConfig) (ts : List TierConfig) (pt : Nat),
      c.tiers = some ts → ∀ hne : ts ≠ [],
      ((∃ pre t post, ts = pre ++ t :: post ∧ (∀ u ∈ pre, ¬ inTierRange pt u) ∧
          inTierRange pt t ∧ select_tier c pt = t.rates) ∨
        ((∀ u ∈ ts, ¬ inTierRange pt u) ∧
          select_tier c pt = (ts.getLast hne).rates))) ∧
    select_tier c4modality 250000 = c4tier2.rates ∧
    (record (mkTracker c4cfg) ⟨"gemini-3-pro-preview", 250000, 0, 250000,
        none⟩ defaultCtx).2.map (fun e => e.cost_usd) = some (3/4) := by
  refine ⟨?_, rfl, ?_⟩
  · intro c ts pt h hne
    have hie : ts.isEmpty = false := by
      cases ts
      · exact absurd rfl hne
      · rfl
    rcases findTier_spec pt ts with ⟨pre, t, post, hsplit, hpre, ht, hfind⟩ |
      ⟨hall, hfind⟩
    · left
      exact ⟨pre, t, post, hsplit, hpre, ht, by simp [select_tier, h, hie, hfind]⟩
    · right
      exact ⟨hall, by simp [select_tier, h, hie, hfind,
        List.getLast?_eq_getLast ts hne]⟩
  · have hpr : resolve c4cfg "gemini-3-pro-preview" 250000 "text" =
        ⟨3/1000, 4/1000, none, none, none, none, none, none, none⟩ := rfl
    have he : c4cfg.enabled = true := rfl
    simp only [record, mkTracker, entryOf, hpr, pyOrRate, roundTo, Option.map, he]
    norm_num [Rat.floor_def]

/-- C4 witness: the general tier-selection characterization applied to
the two-tier fixture at 250,000 prompt tokens. -/
theorem C4_tier_selection_witness :
    (∃ pre t post, [c4tier1, c4tier2] = pre ++ t :: post ∧
      (∀ u ∈ pre, ¬ inTierRange 250000 u) ∧ inTierRange 250000 t ∧
      select_tier c4modality 250000 = t.rates) ∨
    ((∀ u ∈ [c4tier1, c4tier2], ¬ inTierRange 250000 u) ∧
      select_tier c4modality 250000 =
        ([c4tier1, c4tier2].getLast (by simp)).rates) :=
  C4_tier_selection.1 c4modality [c4tier1, c4tier2] 250000 rfl (by simp)

/-- C8: `record` is total — it returns `None` exactly when cost tracking
is disabled, otherwise it returns the computed entry; and when the model
has no pricing entry and no configured default model resolves, the charge
is taken against an all-zero rate table, so the recorded cost is 0. -/
theorem C8_record_never_raises (t : CostTracker) (i : RecordIn) (ctx : Ctx) :
    ((record t i ctx).2 = none ↔ t.enabled = false) ∧
    (t.enabled = true → (record t i ctx).2 = some (entryOf t.cfg i ctx)) ∧
    (lookupModel t.cfg i.model = none →
      (∀ d, t.cfg.default_model = some d → lookupModel t.cfg d = none) →
      ∀ e, (record t i ctx).2 = some e → e.cost_usd = 0) := by
  refine ⟨?_, ?_, ?_⟩
  · cases ht : t.enabled <;> simp [record, ht]
  · intro ht; simp [record, ht]
  · intro hm hd e he
    cases ht : t.enabled
    · simp [record, ht] at he
    · simp only [record, ht, if_true] at he
      have hres : ∀ mdl, resolve t.cfg i.model i.prompt_tokens mdl =
          ⟨0, 0, none, none, none, none, none, none, none⟩ := by
        intro mdl
        simp only [resolve, hm]
        cases hdm : t.cfg.default_model with
        | none => simp
        | some d => simp [hd d hdm]
      have hcost : (entryOf t.cfg i ctx).cost_usd = 0 := by
        simp only [entryOf, hres]
        norm_num [pyOrRate, roundTo]
      have he' : entryOf t.cfg i ctx = e := by
        simpa using he
      rw [← he']
      exact hcost

/-- C8 witness: a disabled tracker's `record` returns `None`, and an
enabled tracker with an empty pricing map returns the computed entry. -/
theorem C8_record_never_raises_witness :
    (record (mkTracker cfgDisabled) ⟨"m", 1, 2, 3, none⟩ defaultCtx).2 = none ∧
    (record (mkTracker {}) ⟨"m", 1, 2, 3, none⟩ defaultCtx).2 =
      some (entryOf ({} : CostsConfig) ⟨"m", 1, 2, 3, none⟩ defaultCtx) :=
  ⟨(C8_record_never_raises (mkTracker cfgDisabled) ⟨"m", 1, 2, 3, none⟩
      defaultCtx).1.mpr rfl,
   (C8_record_never_raises (mkTracker {}) ⟨"m", 1, 2, 3, none⟩
      defaultCtx).2.1 rfl⟩

/-- A bounded-deque append yields length `min (n + 1) m`. -/
theorem dequeAppend_length {α : Type} (m : Nat) (l : List α) (x : α) :
    (dequeAppend m l x).length = min (l.length + 1) m := by
  simp only [dequeAppend]
  split
  · next h =>
    simp only [List.length_drop, List.length_append, List.length_cons,
      List.length_nil] at *
    omega
  · next h =>
    simp only [List.length_append, List.length_cons, List.length_nil] at *
    omega

/-- Folding bounded-deque appends from an empty deque keeps exactly the
last `m` elements, in order. -/
theorem foldl_dequeAppend {α : Type} (m : Nat) (xs : List α) :
    List.foldl (dequeAppend m) [] xs = xs.drop (xs.length - m) := by
  induction xs using List.reverseRecOn with
  | nil => simp
  | append_singleton l a ih =>
    rw [List.foldl_append, ih, List.foldl_cons, List.foldl_nil]
    by_cases hm : l.length < m
    · have h1 : l.length - m = 0 := by omega
      have h2 : (l ++ [a]).length - m = 0 := by
        simp only [List.length_append, List.length_cons, List.length_nil]
        omega
      rw [h1, h2, List.drop_zero, List.drop_zero]
      simp only [dequeAppend]
      rw [if_neg (by
        simp only [List.length_append, List.length_cons, List.length_nil]
        omega)]
    · push_neg at hm
      have hslen : (List.drop (l.length - m) l).length = m := by
        rw [List.length_drop]; omega
      simp only [dequeAppend]
      rw [if_pos (by
        simp only [List.length_append, List.length_cons, List.length_nil, hslen]
        omega)]
      have h3 : (List.drop (l.length - m) l ++ [a]).length - m = 1 := by
        simp only [List.length_append, List.length_cons, List.length_nil, hslen]
        omega
      rw [h3]
      rcases Nat.eq_zero_or_pos m with hm0 | hm1
      · have hs0 : List.drop (l.length - m) l = [] := by
          apply List.eq_nil_of_length_eq_zero
          rw [hslen, hm0]
        rw [hs0]
        have h4 : (l ++ [a]).length ≤ (l ++ [a]).length - m := by
          simp only [List.length_append, List.length_cons, List.length_nil]
          omega
        rw [List.drop_eq_nil_of_le h4]
        rfl
      · rw [List.drop_append_of_le_length (by rw [hslen]; exact hm1),
          List.drop_drop]
        have h5 : (l ++ [a]).length - m = l.length - m + 1 := by
          simp only [List.length_append, List.length_cons, List.length_nil]
          omega
        rw [h5, List.drop_append_of_le_length (by omega)]

/-- An enabled `record` call only appends the computed entry to the
bounded deque. -/
theorem record_fst (t : CostTracker) (i : RecordIn) (ctx : Ctx)
    (ht : t.enabled = true) :
    (record t i ctx).1 = { t with entries := dequeAppend t.max_entries t.entries (entryOf t.cfg i ctx) } := by
  simp [record, ht]

/-- Folding enabled `record` calls folds bounded-deque appends of the
corresponding entries. -/
theorem recordMany_entries (ctx : Ctx) : ∀ (inputs : List RecordIn)
    (t : CostTracker), t.enabled = true →
    (recordMany t inputs ctx).entries =
      List.foldl (dequeAppend t.max_entries) t.entries
        (inputs.map (fun i => entryOf t.cfg i ctx)) := by
  intro inputs
  induction inputs with
  | nil => intro t _; rfl
  | cons i rest ih =>
    intro t ht
    have hstep : recordMany t (i :: rest) ctx =
        recordMany ((record t i ctx).1) rest ctx := rfl
    rw [hstep, record_fst t i ctx ht,
      ih { t with entries := dequeAppend t.max_entries t.entries (entryOf t.cfg i ctx) } ht]
    simp

/-- C6: the ledger never exceeds its configured maximum entry count, and
eviction is FIFO: recording `N + 1` entries into a fresh ledger with
`max_entries = N ≥ 1` leaves exactly the `N` most recent entries in
order and drops the first-recorded one. -/
theorem C6_ledger_bounded_fifo :
    (∀ (t : CostTracker) (i : RecordIn) (ctx : Ctx),
        t.entries.length ≤ t.max_entries →
        ((record t i ctx).1).entries.length ≤ t.max_entries) ∧
    (∀ (cfg : CostsConfig) (inputs : List RecordIn) (ctx : Ctx),
        cfg.enabled = true → 1 ≤ cfg.max_entries →
        inputs.length = cfg.max_entries + 1 →
        (recordMany (mkTracker cfg) inputs ctx).entries =
          (inputs.map (fun i => entryOf cfg i ctx)).tail ∧
        (recordMany (mkTracker cfg) inputs ctx).entries.length =
          cfg.max_entries) := by
  constructor
  · intro t i ctx hlen
    cases ht : t.enabled
    · have : (record t i ctx).1 = t := by simp [record, ht]
      rw [this]; exact hlen
    · rw [record_fst t i ctx ht]
      simp only [dequeAppend_length]
      omega
  · intro cfg inputs ctx hen hm hlen
    have hlen2 : (inputs.map (fun i => entryOf cfg i ctx)).length =
        cfg.max_entries + 1 := by simp [hlen]
    have h2 : (recordMany (mkTracker cfg) inputs ctx).entries =
        (inputs.map (fun i => entryOf cfg i ctx)).tail := by
      rw [recordMany_entries ctx inputs (mkTracker cfg) hen]
      simp only [mkTracker]
      rw [foldl_dequeAppend, hlen2,
        show cfg.max_entries + 1 - cfg.max_entries = 1 by omega, List.drop_one]
    refine ⟨h2, ?_⟩
    rw [h2, List.length_tail, hlen2]
    omega

/-- C6 witness: three records into a two-entry ledger leave the last two
entries, dropping the first. -/
theorem C6_ledger_bounded_fifo_witness :
    (recordMany (mkTracker cfg2) evictIns defaultCtx).entries =
      (evictIns.map (fun i => entryOf cfg2 i defaultCtx)).tail :=
  (C6_ledger_bounded_fifo.2 cfg2 evictIns defaultCtx rfl (by decide) rfl).1

/-- Rounding to `d` decimal places moves a value by at most half an ulp
of the `d`-th decimal place. -/
theorem abs_roundTo_sub (d : Nat) (q : ℚ) :
    |roundTo d q - q| ≤ 1 / (2 * 10 ^ d) := by
  have hpow : (0 : ℚ) < 10 ^ d := by positivity
  have h := abs_sub_round (q * 10 ^ d)
  have key : |roundTo d q - q| =
      |q * 10 ^ d - (round (q * 10 ^ d) : ℚ)| / 10 ^ d := by
    rw [roundTo]
    rw [show ((round (q * 10 ^ d) : ℤ) : ℚ) / 10 ^ d - q =
      ((round (q * 10 ^ d) : ℚ) - q * 10 ^ d) / 10 ^ d from by
        field_simp; ring]
    rw [abs_div, abs_of_pos hpow, abs_sub_comm]
  rw [key, show (1 : ℚ) / (2 * 10 ^ d) = (1 / 2) / 10 ^ d from by rw [div_div]]
  exact (div_le_div_iff_of_pos_right hpow).mpr h

/-- A key missing from a lookup is not among the map's keys. -/
theorem notMem_keys_of_dictLookup_none {β : Type} (k : String) :
    ∀ m : List (String × β), dictLookup k m = none → k ∉ m.map Prod.fst := by
  intro m
  induction m with
  | nil => intro _; simp
  | cons p rest ih =>
    intro hl
    simp only [dictLookup] at hl
    by_cases hp : p.1 = k
    · rw [if_pos hp] at hl
      exact absurd hl (by simp)
    · rw [if_neg hp] at hl
      simp only [List.map_cons, List.mem_cons]
      push_neg
      exact ⟨fun he => hp he.symm, ih hl⟩

/-- Updating an absent key is the identity. -/
theorem mapUpd_id {w : ℚ} (k : String) :
    ∀ m : List (String × ℚ), k ∉ m.map Prod.fst →
      m.map (fun p => if p.1 = k then (k, w) else p) = m := by
  intro m
  induction m with
  | nil => intro _; rfl
  | cons p rest ih =>
    intro hk
    simp only [List.map_cons, List.mem_cons] at hk
    push_neg at hk
    simp only [List.map_cons]
    rw [if_neg (fun h => hk.1 h.symm), ih hk.2]

/-- A value update leaves the key list unchanged. -/
theorem keys_mapUpd (k : String) (w : ℚ) (m : List (String × ℚ)) :
    (m.map (fun p => if p.1 = k then (k, w) else p)).map Prod.fst =
      m.map Prod.fst := by
  induction m with
  | nil => rfl
  | cons p rest ih =>
    simp only [List.map_cons, ih]
    by_cases hp : p.1 = k
    · rw [if_pos hp]; simp [hp]
    · rw [if_neg hp]

/-- Replacing the value bound to a present key (under unique keys)
changes the value sum by exactly the replacement. -/
theorem mapSum_update (k : String) (w : ℚ) :
    ∀ m : List (String × ℚ), (m.map Prod.fst).Nodup →
      ∀ v, dictLookup k m = some v →
      mapSum (m.map (fun p => if p.1 = k then (k, w) else p)) =
        mapSum m - v + w := by
  intro m
  induction m with
  | nil => intro _ v hv; simp [dictLookup] at hv
  | cons p rest ih =>
    intro hnd v hv
    simp only [List.map_cons, List.nodup_cons] at hnd
    obtain ⟨hp1, hnd'⟩ := hnd
    simp only [dictLookup] at hv
    by_cases hp : p.1 = k
    · rw [if_pos hp] at hv
      have hv' : p.2 = v := by simpa using hv
      have hkrest : k ∉ rest.map Prod.fst := by rw [← hp]; exact hp1
      rw [List.map_cons, if_pos hp, mapUpd_id k rest hkrest]
      simp only [mapSum, List.map_cons, List.sum_cons]
      rw [← hv']
      ring
    · rw [if_neg hp] at hv
      rw [List.map_cons, if_neg hp]
      simp only [mapSum, List.map_cons, List.sum_cons]
      have h2 := ih hnd' v hv
      simp only [mapSum] at h2
      rw [h2]
      ring

/-- A bucket update preserves uniqueness of the keys. -/
theorem updBucket_keys_nodup (k : String) (c : ℚ) (m : List (String × ℚ))
    (h : (m.map Prod.fst).Nodup) : ((updBucket m k c).map Prod.fst).Nodup := by
  cases hl : dictLookup k m with
  | some v =>
    simp only [updBucket, hl]
    rw [keys_mapUpd]
    exact h
  | none =>
    have hk := notMem_keys_of_dictLookup_none k m hl
    simp only [updBucket, hl]
    rw [List.map_append, List.map_cons, List.map_nil, List.nodup_append]
    refine ⟨h, List.nodup_singleton _, ?_⟩
    intro a ha hb
    rw [List.mem_singleton] at hb
    subst hb
    exact hk ha

/-- One bucket-accumulation step moves the map's value sum by the
accumulated cost, up to one 6-decimal rounding. -/
theorem updBucket_mapSum_err (k : String) (c : ℚ) (m : List (String × ℚ))
    (h : (m.map Prod.fst).Nodup) :
    |mapSum (updBucket m k c) - (mapSum m + c)| ≤ eps6 := by
  have h6 : eps6 = 1 / (2 * 10 ^ 6) := by norm_num [eps6]
  cases hl : dictLookup k m with
  | some v =>
    simp only [updBucket, hl]
    rw [mapSum_update k (roundTo 6 (v + c)) m h v hl]
    rw [show mapSum m - v + roundTo 6 (v + c) - (mapSum m + c) =
      roundTo 6 (v + c) - (v + c) from by ring, h6]
    exact abs_roundTo_sub 6 (v + c)
  | none =>
    simp only [updBucket, hl]
    have happ : mapSum (m ++ [(k, roundTo 6 (0 + c))]) =
        mapSum m + roundTo 6 (0 + c) := by
      simp [mapSum]
    rw [happ, show mapSum m + roundTo 6 (0 + c) - (mapSum m + c) =
      roundTo 6 (0 + c) - (0 + c) from by ring, h6]
    exact abs_roundTo_sub 6 (0 + c)

/-- Folding the bucket accumulation over a list of entries keeps the
value sum within one 6-decimal rounding per entry of the exact sum. -/
theorem breakdown_fold_err (key : Entry → String) :
    ∀ (es : List Entry) (m : List (String × ℚ)), (m.map Prod.fst).Nodup →
      |mapSum (es.foldl (fun m e => updBucket m (orUnknown (key e)) e.cost_usd) m)
          - (mapSum m + (es.map (fun e => e.cost_usd)).sum)| ≤
        es.length * eps6 := by
  intro es
  induction es with
  | nil => intro m h; simp
  | cons e rest ih =>
    intro m h
    simp only [List.foldl_cons, List.map_cons, List.sum_cons, List.length_cons]
    have hnd1 : ((updBucket m (orUnknown (key e)) e.cost_usd).map Prod.fst).Nodup :=
      updBucket_keys_nodup _ _ _ h
    have h1 := ih (updBucket m (orUnknown (key e)) e.cost_usd) hnd1
    have h2 := updBucket_mapSum_err (orUnknown (key e)) e.cost_usd m h
    have h3 : |mapSum (updBucket m (orUnknown (key e)) e.cost_usd) +
        (rest.map (fun e => e.cost_usd)).sum -
        (mapSum m + (e.cost_usd + (rest.map (fun e => e.cost_usd)).sum))| ≤
        eps6 := by
      rw [show mapSum (updBucket m (orUnknown (key e)) e.cost_usd) +
          (rest.map (fun e => e.cost_usd)).sum -
          (mapSum m + (e.cost_usd + (rest.map (fun e => e.cost_usd)).sum)) =
        mapSum (updBucket m (orUnknown (key e)) e.cost_usd) -
          (mapSum m + e.cost_usd) from by ring]
      exact h2
    have tri := abs_sub_le
      (mapSum (List.foldl (fun m e => updBucket m (orUnknown (key e)) e.cost_usd)
        (updBucket m (orUnknown (key e)) e.cost_usd) rest))
      (mapSum (updBucket m (orUnknown (key e)) e.cost_usd) +
        (rest.map (fun e => e.cost_usd)).sum)
      (mapSum m + (e.cost_usd + (rest.map (fun e => e.cost_usd)).sum))
    have hfin := le_trans tri (add_le_add h1 h3)
    rw [show ((rest.length + 1 : ℕ) : ℚ) * eps6 =
      (rest.length : ℚ) * eps6 + eps6 from by push_cast; ring]
    exact hfin

/-- C9: `summary()` is internally consistent: the value sum of each of
the three breakdown maps equals `totals.cost_usd` within the accumulated
tolerance of the 6-decimal roundings applied to the sums (one per entry
plus one for the total), and `totals.cost_usd` equals the sum of the
individual entries' `cost_usd` values within half an ulp of the 6th
decimal place. -/
theorem C9_summary_consistency (t : CostTracker) :
    |mapSum (summary t).by_workflow - (summary t).totals_cost_usd| ≤
      ((t.entries.length : ℚ) + 1) * eps6 ∧
    |mapSum (summary t).by_agent - (summary t).totals_cost_usd| ≤
      ((t.entries.length : ℚ) + 1) * eps6 ∧
    |mapSum (summary t).by_model - (summary t).totals_cost_usd| ≤
      ((t.entries.length : ℚ) + 1) * eps6 ∧
    |(summary t).totals_cost_usd - (t.entries.map (fun e => e.cost_usd)).sum| ≤
      eps6 := by
  have htot : |(summary t).totals_cost_usd -
      (t.entries.map (fun e => e.cost_usd)).sum| ≤ eps6 := by
    show |roundTo 6 ((t.entries.map (fun e => e.cost_usd)).sum) -
      (t.entries.map (fun e => e.cost_usd)).sum| ≤ eps6
    rw [show eps6 = 1 / (2 * 10 ^ 6) from by norm_num [eps6]]
    exact abs_roundTo_sub 6 _
  have hbk : ∀ key : Entry → String,
      |mapSum (breakdownMap key t.entries) - (summary t).totals_cost_usd| ≤
        ((t.entries.length : ℚ) + 1) * eps6 := by
    intro key
    have h1 := breakdown_fold_err key t.entries [] (by simp)
    have h0 : mapSum ([] : List (String × ℚ)) = 0 := rfl
    rw [h0, zero_add] at h1
    have hb : breakdownMap key t.entries = List.foldl
        (fun m e => updBucket m (orUnknown (key e)) e.cost_usd) [] t.entries := rfl
    rw [← hb] at h1
    have htot' : |(t.entries.map (fun e => e.cost_usd)).sum -
        (summary t).totals_cost_usd| ≤ eps6 := by
      rw [abs_sub_comm]; exact htot
    have tri := abs_sub_le (mapSum (breakdownMap key t.entries))
      ((t.entries.map (fun e => e.cost_usd)).sum) ((summary t).totals_cost_usd)
    have hfin := le_trans tri (add_le_add h1 htot')
    rw [show ((t.entries.length : ℚ) + 1) * eps6 =
      (t.entries.length : ℚ) * eps6 + eps6 from by ring]
    exact hfin
  exact ⟨hbk (fun e => e.workflow), hbk (fun e => e.agent),
    hbk (fun e => e.model), htot⟩

/-- C10: a limit of `0` behaves as "no limit" at both public read
interfaces: `get_execution_history(0)` returns the whole history and
`recent(0)` returns all stored entries, most-recent-last. -/
theorem C10_zero_limit_means_all {D : Type} (p : Pipeline D) (t : CostTracker) :
    get_execution_history p (some 0) = p.execution_history ∧
    recent t 0 = t.entries := by
  constructor
  · simp [get_execution_history, truthyOptNat]
  · simp [recent, pySliceLast]

end PetSwipe
